import Mathlib

/-!
A verification development for the frame-based abstract virtual machine of the
pytype rewrite.  The definitions below are a shallow embedding of
`pytype/rewrite/frame.py`, `pytype/rewrite/abstract/utils.py` and
`pytype/rewrite/analyze.py`.  Support modules that the repository snapshot does
not include (`pytype/rewrite/flow/variables.py`, `pytype/rewrite/stack.py`,
`pytype/rewrite/flow/frame_base.py`, the `abstract` value hierarchy and
`pytype/rewrite/vm.py`) are modelled from the specification where needed; every
such definition carries a doc comment starting with `Modelled from the spec:`.

Python exceptions are represented by an explicit error type and fallible
operations return `Except`.  In-place attribute mutation (`set_attribute`) is
represented by an explicit list of attribute-store effects.
-/

/-- Python-level errors raised by the engine, as explicit error kinds. -/
inductive PyError where
  | keyError (name : String)
  | nameError (name : String)
  | valueErrorNotSingle
  | valueErrorWrongConstantType (expected : String) (got : String)
  | valueErrorUnpack
  | notImplementedError (msg : String)
  | assertionError
  | attributeError (name : String)
  | stackUnderflow
  deriving DecidableEq, Repr

/-- The runtime type expected by `get_atomic_constant`'s `typ` argument
(`str`, `int`, `bool`, `tuple`, or a code object). -/
inductive ConstType where
  | strT
  | intT
  | boolT
  | tupleT
  | codeT
  deriving DecidableEq, Repr

mutual

/-- Payload of an abstract `PythonConstant`: a literal number, string, boolean,
code-object reference (identified by an id, carrying its qualified name), the
`None` literal, or a tuple.  A tuple built by `BUILD_TUPLE` collects the popped
stack entries, which are Variables; `byte_MAKE_FUNCTION` reads the free-variable
names off such a tuple. -/
inductive PyConst where
  | intC (n : Int)
  | strC (s : String)
  | boolC (b : Bool)
  | codeC (codeId : Nat) (qualname : String)
  | noneC
  | tupleC (elts : VarList)
  deriving DecidableEq

/-- The closed hierarchy of abstract values (`abstract.BaseValue`):
constants, interpreter-defined functions (name, code, enclosing-scope names and
the name of the defining frame), bound functions, interpreter classes (name,
member mapping, nested functions and classes), instances, unions, the `Any`
top value, and the singleton constants `__build_class__` and `NULL`. -/
inductive BaseValue where
  | constant (c : PyConst)
  | interpreterFunction (name : String) (codeId : Nat)
      (enclosingScope : List String) (definingFrame : String)
  | boundFunction (callee : BaseValue) (receiver : BaseValue)
  | interpreterClass (name : String) (members : MemberList)
      (functions : ValList) (classes : ValList)
  | instanceOf (clsName : String)
  | union (options : ValList)
  | anyVal
  | buildClassConst
  | nullConst
  deriving DecidableEq

/-- Association list of class members (name to abstract value). -/
inductive MemberList where
  | nil
  | cons (name : String) (v : BaseValue) (rest : MemberList)
  deriving DecidableEq

/-- List of abstract values (used inside `union` and `interpreterClass`). -/
inductive ValList where
  | nil
  | cons (v : BaseValue) (rest : ValList)
  deriving DecidableEq

/-- Modelled from the spec: a Binding pairs an abstract value with the path
condition under which it was produced; the condition is an opaque token. -/
inductive Binding where
  | mk (value : BaseValue) (condition : Nat)
  deriving DecidableEq

/-- List of bindings. -/
inductive BindingList where
  | nil
  | cons (b : Binding) (rest : BindingList)
  deriving DecidableEq

/-- Modelled from the spec: a Variable is an ordered sequence of Bindings for
one name at one program point, plus an optional display name. -/
inductive Variable where
  | mk (bindings : BindingList) (name : Option String)
  deriving DecidableEq

/-- List of variables (the payload of a tuple constant). -/
inductive VarList where
  | nil
  | cons (v : Variable) (rest : VarList)
  deriving DecidableEq

end

namespace ValList

def toList : ValList → List BaseValue
  | .nil => []
  | .cons v rest => v :: toList rest

def ofList : List BaseValue → ValList
  | [] => .nil
  | v :: rest => .cons v (ofList rest)

end ValList

namespace MemberList

def toList : MemberList → List (String × BaseValue)
  | .nil => []
  | .cons n v rest => (n, v) :: toList rest

def ofList : List (String × BaseValue) → MemberList
  | [] => .nil
  | (n, v) :: rest => .cons n v (ofList rest)

end MemberList

namespace BindingList

def toList : BindingList → List Binding
  | .nil => []
  | .cons b rest => b :: toList rest

def ofList : List Binding → BindingList
  | [] => .nil
  | b :: rest => .cons b (ofList rest)

end BindingList

namespace VarList

def toList : VarList → List Variable
  | .nil => []
  | .cons v rest => v :: toList rest

end VarList

def Binding.value : Binding → BaseValue
  | .mk v _ => v

def Binding.condition : Binding → Nat
  | .mk _ c => c

def Variable.bindings : Variable → BindingList
  | .mk bs _ => bs

def Variable.name : Variable → Option String
  | .mk _ n => n

/-- Modelled from the spec: `Variable.values` exposes the distinct abstract
values across all of the variable's bindings. -/
def Variable.values (var : Variable) : List BaseValue :=
  ((var.bindings.toList.map Binding.value).dedup)

/-- Modelled from the spec: `Variable.with_name` returns the same variable
carrying the given display name. -/
def Variable.with_name (var : Variable) (n : String) : Variable :=
  .mk var.bindings (some n)

/-- Modelled from the spec: `BaseValue.to_variable` wraps a value in a
single-binding variable with an optional display name. -/
def BaseValue.to_variable (v : BaseValue) (n : Option String) : Variable :=
  .mk (.cons (.mk v 0) .nil) n

/-- Modelled from the spec: `Variable.get_atomic_value` returns the sole value
when the variable has exactly one binding and that value satisfies the variant
filter; otherwise it fails with a "not a single concrete value" error. -/
def Variable.get_atomic_value (var : Variable) (filt : BaseValue → Bool) :
    Except PyError BaseValue :=
  match var.bindings.toList with
  | [b] => if filt b.value then .ok b.value else .error .valueErrorNotSingle
  | _ => .error .valueErrorNotSingle

/-- Modelled from the spec: `Variable.has_atomic_value` tests whether the
variable holds exactly one binding whose value equals the given one. -/
def Variable.has_atomic_value (var : Variable) (v : BaseValue) : Bool :=
  match var.bindings.toList with
  | [b] => b.value = v
  | _ => false

/-- Does the abstract value satisfy `isinstance(value, base.PythonConstant)`? -/
def BaseValue.isPythonConstant : BaseValue → Bool
  | .constant _ => true
  | _ => false

/-- Does the abstract value satisfy
`isinstance(func, (SimpleFunction, InterpreterClass, BoundFunction))`?
(`InterpreterFunction` is the interpreter-defined subclass of
`SimpleFunction`.) -/
def BaseValue.isSimpleCallable : BaseValue → Bool
  | .interpreterFunction _ _ _ _ => true
  | .boundFunction _ _ => true
  | .interpreterClass _ _ _ _ => true
  | _ => false

/-- Does the abstract value satisfy `isinstance(value, InterpreterFunction)`? -/
def BaseValue.isInterpreterFunction : BaseValue → Bool
  | .interpreterFunction _ _ _ _ => true
  | _ => false

/-- `isinstance(constant, runtime_type)` for the constant payloads.  Note that
in Python `bool` is a subclass of `int`, so a boolean constant also matches an
expected type of `int`. -/
def PyConst.matchesType : PyConst → ConstType → Bool
  | .intC _, .intT => true
  | .strC _, .strT => true
  | .boolC _, .boolT => true
  | .boolC _, .intT => true
  | .codeC _ _, .codeT => true
  | .tupleC _, .tupleT => true
  | _, _ => false

/-- The python class name of a constant payload, for error messages. -/
def PyConst.className : PyConst → String
  | .intC _ => "int"
  | .strC _ => "str"
  | .boolC _ => "bool"
  | .codeC _ _ => "OrderedCode"
  | .noneC => "NoneType"
  | .tupleC _ => "tuple"

/-- The name of an expected runtime type, for error messages. -/
def ConstType.className : ConstType → String
  | .strT => "str"
  | .intT => "int"
  | .boolT => "bool"
  | .tupleT => "tuple"
  | .codeT => "OrderedCode"

/-- `get_atomic_constant` from `pytype/rewrite/abstract/utils.py`: extracts the
variable's single `PythonConstant` value, unwraps it, and, when an expected
runtime type is supplied, fails with a wrong-constant-type `ValueError` unless
the wrapped literal is an instance of that type. -/
def get_atomic_constant (var : Variable) (typ : Option ConstType) :
    Except PyError PyConst := do
  let value ← var.get_atomic_value BaseValue.isPythonConstant
  match value with
  | .constant c =>
    match typ with
    | some t =>
      if c.matchesType t then pure c
      else .error (.valueErrorWrongConstantType t.className c.className)
    | none => pure c
  | _ => .error .valueErrorNotSingle

/-- `flatten_variable` from `pytype/rewrite/abstract/utils.py`: collapses a
variable's values into a single abstract value — a union when there is more
than one value, the single value when there is exactly one, `Any` when there
are none. -/
def flatten_variable (var : Variable) : BaseValue :=
  let values := var.values
  if values.length > 1 then
    .union (ValList.ofList values)
  else
    match values with
    | v :: _ => v
    | [] => .anyVal

/-- Modelled from the spec: `abstract.join_values` returns the single element
if the sequence has exactly one, `Any` if it is empty, and otherwise a union
of the distinct elements. -/
def join_values (values : List BaseValue) : BaseValue :=
  match values with
  | [] => .anyVal
  | [v] => v
  | _ => .union (ValList.ofList values.dedup)

/-- A name-to-Variable mapping with Python-dict semantics: insertion order is
preserved and storing to an existing key overwrites in place. -/
structure VarMap where
  entries : List (String × Variable)
  deriving DecidableEq

/-- Lookup in an entries list, first match wins. -/
def lookupEntries (k : String) : List (String × Variable) → Option Variable
  | [] => none
  | (k', v) :: rest => if k' = k then some v else lookupEntries k rest

/-- Store into an entries list: overwrite an existing key in place, otherwise
append at the end (Python dict update semantics). -/
def insertEntries (k : String) (v : Variable) :
    List (String × Variable) → List (String × Variable)
  | [] => [(k, v)]
  | (k', v') :: rest =>
    if k' = k then (k, v) :: rest else (k', v') :: insertEntries k v rest

namespace VarMap

def empty : VarMap := ⟨[]⟩

def lookup (m : VarMap) (k : String) : Option Variable :=
  lookupEntries k m.entries

def insert (m : VarMap) (k : String) (v : Variable) : VarMap :=
  ⟨insertEntries k v m.entries⟩

def keys (m : VarMap) : List String := m.entries.map Prod.fst

def isEmpty (m : VarMap) : Bool := m.entries.isEmpty

/-- Python dict equality: the same keys mapped to equal values, regardless of
insertion order. -/
def equivB (m1 m2 : VarMap) : Bool :=
  (m1.keys.all fun k => lookup m1 k = lookup m2 k) &&
  (m2.keys.all fun k => lookup m1 k = lookup m2 k)

end VarMap

/-- A virtual machine frame (`frame.py`, class `Frame`).  The mutable execution
state is represented by explicit fields; the back-reference to the creating
frame is represented by the `hasBack` flag, with the creating frame itself
passed explicitly to the operations that touch it.  `builtins` stands for the
context's abstract loader (an external collaborator resolving builtin names).
`locals` is the current state's name-to-Variable mapping; at completion of the
instruction stream it is the frame's final variable mapping, from which
`finalLocals` (values flattened by join) is produced. -/
structure Frame where
  name : String
  pythonVersion : Nat × Nat
  initialEnclosing : VarMap
  initialGlobals : VarMap
  hasBack : Bool
  builtins : List (String × BaseValue)
  locals : VarMap
  dataStack : List Variable
  shadowedEnclosing : List String
  shadowedGlobals : List String
  functions : List BaseValue
  classes : List BaseValue
  returns : List Variable
  finalLocals : Option (List (String × BaseValue))
  deriving DecidableEq

namespace Frame

/-- The name of the module frame. -/
def moduleFrameName : String := "__main__"

def is_module_frame (f : Frame) : Bool := f.name = moduleFrameName

/-- `Frame.__init__` with its two sanity checks, which fail (AssertionError)
when violated: a module frame must have equal initial locals and globals, and
a frame may have an enclosing scope only if it has a creating frame. -/
def make (name : String) (pythonVersion : Nat × Nat)
    (initial_locals initial_enclosing initial_globals : VarMap)
    (hasBack : Bool) (builtins : List (String × BaseValue)) : Option Frame :=
  if name = moduleFrameName ∧ ¬ VarMap.equivB initial_locals initial_globals then
    none
  else if ¬ hasBack ∧ ¬ initial_enclosing.isEmpty then
    none
  else
    some {
      name := name
      pythonVersion := pythonVersion
      initialEnclosing := initial_enclosing
      initialGlobals := initial_globals
      hasBack := hasBack
      builtins := builtins
      locals := initial_locals
      dataStack := []
      shadowedEnclosing := []
      shadowedGlobals := []
      functions := []
      classes := []
      returns := []
      finalLocals := none
    }

/-- `Frame.make_module_frame`: a frame named `__main__` whose initial locals
and globals are the same mapping, with no enclosing scope and no parent. -/
def make_module_frame (pythonVersion : Nat × Nat) (initial_globals : VarMap)
    (builtins : List (String × BaseValue)) : Option Frame :=
  make moduleFrameName pythonVersion initial_globals VarMap.empty
    initial_globals false builtins

def store_local (f : Frame) (name : String) (var : Variable) : Frame :=
  { f with locals := f.locals.insert name var }

/-- `store_enclosing`: shadow the name from the enclosing scope; it is merged
into the creating frame when the current frame finishes. -/
def store_enclosing (f : Frame) (name : String) (var : Variable) : Frame :=
  let f' := f.store_local name var
  { f' with shadowedEnclosing :=
      if f'.shadowedEnclosing.contains name then f'.shadowedEnclosing
      else f'.shadowedEnclosing ++ [name] }

/-- `store_global`: store the global as a local and record the shadowing. -/
def store_global (f : Frame) (name : String) (var : Variable) : Frame :=
  let f' := f.store_local name var
  { f' with shadowedGlobals :=
      if f'.shadowedGlobals.contains name then f'.shadowedGlobals
      else f'.shadowedGlobals ++ [name] }

/-- `store_deref`: writing to a name in the parent's local scope and to a name
in the child's enclosing scope are the same runtime operation (STORE_DEREF). -/
def store_deref (f : Frame) (name : String) (var : Variable) : Frame :=
  if (f.initialEnclosing.lookup name).isSome then
    f.store_enclosing name var
  else
    f.store_local name var

def shadows_enclosing (f : Frame) (name : String) : Bool :=
  f.shadowedEnclosing.contains name

def shadows_global (f : Frame) (name : String) : Bool :=
  if f.is_module_frame then false
  else f.shadowedGlobals.contains name

/-- The current state's `load_local`, raising `KeyError` on a missing name. -/
def state_load_local (f : Frame) (name : String) : Except PyError Variable :=
  match f.locals.lookup name with
  | some v => .ok v
  | none => .error (.keyError name)

def load_local (f : Frame) (name : String) : Except PyError Variable :=
  if f.shadows_enclosing name ∨ f.shadows_global name then
    .error (.keyError name)
  else
    f.state_load_local name

def load_enclosing (f : Frame) (name : String) : Except PyError Variable :=
  if f.shadows_enclosing name then
    f.state_load_local name
  else
    match f.initialEnclosing.lookup name with
    | some v => .ok (v.with_name name)
    | none => .error (.keyError name)

/-- Builtin lookup through the context's abstract loader; a failing lookup
propagates as a name-resolution error. -/
def load_builtin (f : Frame) (name : String) : Except PyError Variable :=
  match f.builtins.lookup name with
  | some v => .ok (v.to_variable (some name))
  | none => .error (.nameError name)

def load_global (f : Frame) (name : String) : Except PyError Variable :=
  if f.shadows_global name then
    f.state_load_local name
  else
    if f.is_module_frame then
      match f.locals.lookup name with
      | some v => .ok v
      | none => f.load_builtin name
    else
      match f.initialGlobals.lookup name with
      | some v => .ok (v.with_name name)
      | none => f.load_builtin name

/-- `load_deref`: reading a parent-local name and a child-enclosing name are
the same runtime operation (LOAD_DEREF). -/
def load_deref (f : Frame) (name : String) : Except PyError Variable :=
  match f.load_local name with
  | .ok v => .ok v
  | .error _ => f.load_enclosing name

end Frame

/-- `str.rpartition('.')` restricted to what `_merge_nonlocals_into` needs:
splits a name at its last dot into (target name, attribute name); `none` when
the name contains no dot. -/
def rpartitionCharList : List Char → Option (List Char × List Char)
  | [] => none
  | c :: rest =>
    match rpartitionCharList rest with
    | some (t, a) => some (c :: t, a)
    | none => if c = '.' then some ([], rest) else none

def rpartitionDot (s : String) : Option (String × String) :=
  match rpartitionCharList s.toList with
  | some (t, a) => some (String.mk t, String.mk a)
  | none => none

/-- An attribute write performed at frame finalization: `set_attribute` of the
joined attribute value on one value the target variable can hold.  The source
mutates the target object in place; the model records the write as an effect. -/
inductive MergeEffect where
  | attrStore (target : BaseValue) (attrName : String) (value : BaseValue)
  deriving DecidableEq

/-- The STORE_ATTR loop of `Frame._merge_nonlocals_into`: walk the frame's
final locals; every compound name `"target.attr"` whose target name is itself
bound in the final locals is either applied as attribute writes on each value
of the target variable, or, when the given (live) frame has a local binding
for the target name with equal value lists, stored into that frame as an
ordinary local write.  Returns the accumulated attribute-store effects and the
updated frame. -/
def mergeAttrLoop (finalLocals : VarMap) (frame : Option Frame) :
    List (String × Variable) → List MergeEffect × Option Frame
  | [] => ([], frame)
  | (name, var) :: rest =>
    match rpartitionDot name with
    | none => mergeAttrLoop finalLocals frame rest
    | some (targetName, attrName) =>
      match finalLocals.lookup targetName with
      | none => mergeAttrLoop finalLocals frame rest
      | some targetVar =>
        let storeOnTarget : Bool :=
          match frame with
          | none => true
          | some fr =>
            match fr.load_local targetName with
            | .error _ => true
            | .ok frameTargetVar => targetVar.values ≠ frameTargetVar.values
        if storeOnTarget then
          let value := join_values (Variable.values var)
          let effects :=
            targetVar.values.map (fun target => .attrStore target attrName value)
          let (restEffects, frame') := mergeAttrLoop finalLocals frame rest
          (effects ++ restEffects, frame')
        else
          let frame' := frame.map (fun fr => fr.store_local name var)
          mergeAttrLoop finalLocals frame' rest

/-- Fold one shadowed name into the creating frame; the child's final locals
must contain the name (it was stored there by the shadowing write). -/
def foldShadowed (finalLocals : VarMap)
    (store : Frame → String → Variable → Frame) (fr : Frame) (name : String) :
    Except PyError Frame :=
  match finalLocals.lookup name with
  | some var => .ok (store fr name var)
  | none => .error (.keyError name)

/-- `Frame._merge_nonlocals_into`: perform the recorded STORE_ATTR operations,
then, when a (live) creating frame is given, fold every shadowed enclosing
name into it via `store_deref` and every shadowed global name via
`store_global`. -/
def Frame.merge_nonlocals_into (child : Frame) (frame : Option Frame) :
    Except PyError (List MergeEffect × Option Frame) := do
  let (effects, frame') := mergeAttrLoop child.locals frame child.locals.entries
  match frame' with
  | none => .ok (effects, none)
  | some fr => do
    let fr ← child.shadowedEnclosing.foldlM
      (foldShadowed child.locals Frame.store_deref) fr
    let fr ← child.shadowedGlobals.foldlM
      (foldShadowed child.locals Frame.store_global) fr
    .ok (effects, some fr)

/-- The completion phase of `Frame.run`, after the instruction stream has been
consumed: assert the data stack is empty, pick the creating frame as the merge
target only when it is still live (its `final_locals` not yet set), merge the
shadowed nonlocals into it, clear the current state, and produce the finalized
locals snapshot with each variable collapsed by join.  Returns the finalized
frame, the (possibly updated) creating frame, and the attribute-store
effects. -/
def Frame.runFinalize (child : Frame) (fBack : Option Frame) :
    Except PyError (Frame × Option Frame × List MergeEffect) := do
  if ¬ child.dataStack.isEmpty then
    .error .assertionError
  else
    let liveParent := match fBack with
      | some p => if p.finalLocals = none then some p else none
      | none => none
    let (effects, parent') ← child.merge_nonlocals_into liveParent
    let finalizedChild := { child with
      finalLocals := some (child.locals.entries.map
        (fun e => (e.fst, join_values e.snd.values))) }
    let resultBack := match fBack, parent' with
      | some _, some p' => some p'
      | some p, none => some p
      | none, _ => none
    .ok (finalizedChild, resultBack, effects)

/-- Function-call arguments (`abstract.Args`); the `frame` keyword of the
source carries the calling frame and has no effect in this model, where the
behavior of callees is an oracle parameter. -/
structure Args where
  posargs : List Variable
  deriving DecidableEq

/-- What a fully run child frame provides to its caller: the return value
(joined from the values passed to RETURN_VALUE), the finalized local bindings,
and the functions and classes defined during execution. -/
structure FrameResult where
  returnValue : BaseValue
  finalLocals : List (String × BaseValue)
  functions : List BaseValue
  classes : List BaseValue

/-- Modelled from the spec: invoking a callable value creates and fully runs a
child frame (or runs the host implementation) and yields its results.  The
`abstract` call machinery is not included in the snapshot, so the behavior of
`func.call(args)` is an oracle parameter of the call-simulation model. -/
def CallOracle : Type := BaseValue → Args → FrameResult

/-- One iteration of the `_call_function` loop, dispatching on one possible
callable value: interpreter-defined functions, bound functions and interpreter
classes are invoked and their return value collected; the `__build_class__`
constant runs the class-body function as a child frame and builds an
`InterpreterClass` from that frame's finalized locals, functions and classes,
named by an atomic string read from the argument stack, appending the class to
the calling frame's class list; anything else raises `NotImplementedError`. -/
def callValue (oracle : CallOracle) (f : Frame) (args : Args)
    (func : BaseValue) : Except PyError (Frame × BaseValue) :=
  if func.isSimpleCallable then
    .ok (f, (oracle func args).returnValue)
  else if func = .buildClassConst then
    match args.posargs with
    | [class_body, nameVar] => do
      let builder ← class_body.get_atomic_value BaseValue.isInterpreterFunction
      let res := oracle builder ⟨[]⟩
      let clsName ← match ← get_atomic_constant nameVar (some .strT) with
        | .strC s => pure s
        | _ => Except.error .valueErrorNotSingle
      let cls := BaseValue.interpreterClass clsName
        (MemberList.ofList res.finalLocals)
        (ValList.ofList res.functions) (ValList.ofList res.classes)
      .ok ({ f with classes := f.classes ++ [cls] }, cls)
    | _ => .error .valueErrorUnpack
  else
    .error (.notImplementedError "CALL not fully implemented")

/-- The `_call_function` loop over every possible callable value of the popped
callable variable, collecting the return values in order. -/
def callValues (oracle : CallOracle) (f : Frame) (args : Args) :
    List BaseValue → Except PyError (Frame × List BaseValue)
  | [] => .ok (f, [])
  | v :: rest => do
    let (f', r) ← callValue oracle f args v
    let (f'', rs) ← callValues oracle f' args rest
    .ok (f'', r :: rs)

/-- `Frame._call_function`: iterate over every possible callable value of the
callable variable and push one return variable carrying one binding per
collected result onto the operand stack. -/
def Frame.call_function (f : Frame) (oracle : CallOracle)
    (func_var : Variable) (args : Args) : Except PyError Frame := do
  let (f', ret_values) ← callValues oracle f args func_var.values
  let ret := Variable.mk
    (BindingList.ofList (ret_values.map (fun v => Binding.mk v 0))) none
  .ok { f' with dataStack := ret :: f'.dataStack }

/-- `pyc_marshal.Flags.MAKE_FUNCTION_HAS_FREE_VARS`. -/
def MAKE_FUNCTION_HAS_FREE_VARS : Nat := 8

/-- Version comparison `self._code.python_version >= (3, 11)`. -/
def versionAtLeast (v w : Nat × Nat) : Bool :=
  v.fst > w.fst ∨ (v.fst = w.fst ∧ v.snd ≥ w.snd)

/-- Pop the top of the data stack (`DataStack.pop`). -/
def popStack (f : Frame) : Except PyError (Variable × Frame) :=
  match f.dataStack with
  | [] => .error .stackUnderflow
  | top :: rest => .ok (top, { f with dataStack := rest })

/-- The free-variable names of a tuple constant's elements
(`tuple(freevar.name for freevar in freevars)` followed by
`assert all(enclosing_scope)`): every element must be a variable carrying a
non-empty display name. -/
def freevarNames : List Variable → Except PyError (List String)
  | [] => .ok []
  | v :: rest => do
    let names ← freevarNames rest
    match v.name with
    | some n => if n = "" then .error .assertionError else .ok (n :: names)
    | none => .error .assertionError

/-- `Frame.byte_MAKE_FUNCTION`: reject unsupported flag combinations; read the
function's name and code object atomically off the stack (the order and the
source of the name depend on the Python version); when the free-variables flag
is set, read an exact tuple of free-variable names from a preceding stack
value; create the interpreter function; append it to the frame's function list
*unless* the remaining stack top holds the atomic `__build_class__` constant
(a class-body function is analyzed as part of class construction, not
separately); push the new function onto the stack. -/
def Frame.byte_MAKE_FUNCTION (f : Frame) (arg : Nat) : Except PyError Frame := do
  if arg ≠ 0 ∧ arg ≠ MAKE_FUNCTION_HAS_FREE_VARS then
    .error (.notImplementedError "MAKE_FUNCTION not fully implemented")
  else do
    let (name, codeId, f1) ←
      if versionAtLeast f.pythonVersion (3, 11) then do
        let (codeVar, f') ← popStack f
        match ← get_atomic_constant codeVar (some .codeT) with
        | .codeC codeId qualname => pure (qualname, codeId, f')
        | _ => Except.error .valueErrorNotSingle
      else do
        let (nameVar, f') ← popStack f
        let name ← match ← get_atomic_constant nameVar (some .strT) with
          | .strC s => pure s
          | _ => Except.error .valueErrorNotSingle
        let (codeVar, f'') ← popStack f'
        match ← get_atomic_constant codeVar (some .codeT) with
        | .codeC codeId _ => pure (name, codeId, f'')
        | _ => Except.error .valueErrorNotSingle
    let (enclosing_scope, f2) ←
      if arg &&& MAKE_FUNCTION_HAS_FREE_VARS ≠ 0 then do
        let (freevarsVar, f') ← popStack f1
        match ← get_atomic_constant freevarsVar none with
        | .tupleC elts => do
          let names ← freevarNames elts.toList
          pure (names, f')
        | _ => Except.error (.attributeError "name")
      else
        pure ([], f1)
    let func := BaseValue.interpreterFunction name codeId enclosing_scope f.name
    let append : Bool :=
      match f2.dataStack with
      | [] => true
      | top :: _ => ¬ top.has_atomic_value .buildClassConst
    let f3 := if append then { f2 with functions := f2.functions ++ [func] }
      else f2
    .ok { f3 with dataStack := func.to_variable none :: f3.dataStack }

/-- Configuration options passed through to the virtual machine, as an opaque
token. -/
structure Options where
  optionsId : Nat
  deriving DecidableEq

/-- The pytd loader collaborator; `concat_all` produces the cross-module
dependency summary and is represented by its result. -/
structure Loader where
  concatAllResult : Nat
  deriving DecidableEq

/-- Modelled from the spec: the virtual machine (`pytype/rewrite/vm.py`, not in
the snapshot).  `VirtualMachine.from_source(src, options)` followed by
`analyze_all_defs()` or `infer_stub()` is represented abstractly by functions
of the source text and options — exactly the data `analyze.py` passes in. -/
structure VirtualMachineModel where
  analyzeAllDefs : String → Options → Nat
  inferStub : String → Options → Nat × Nat

/-- `analyze.Analysis`: the analysis results (context, inferred ast, and the
ast's dependencies), with the context and asts as opaque tokens. -/
structure Analysis where
  context : Nat
  ast : Option Nat
  astDeps : Option Nat
  deriving DecidableEq

/-- `analyze._INIT_MAXIMUM_DEPTH`: how deep to follow call chains during
module loading. -/
def INIT_MAXIMUM_DEPTH : Nat := 4

/-- `analyze._MAXIMUM_DEPTH`: how deep to follow call chains during analysis
of function bodies. -/
def MAXIMUM_DEPTH : Nat := 3

/-- `analyze.check_types`: checks types for the given source code.  The source
deletes `loader`, `init_maximum_depth` and `maximum_depth` unused, builds the
virtual machine from the source text and options alone, and analyzes all
definitions. -/
def check_types (vm : VirtualMachineModel) (src : String) (options : Options)
    (loader : Loader) (init_maximum_depth : Nat) (maximum_depth : Nat) :
    Analysis :=
  let _ := loader
  let _ := init_maximum_depth
  let _ := maximum_depth
  { context := vm.analyzeAllDefs src options, ast := none, astDeps := none }

/-- `analyze.infer_types`: infers types for the given source code.  The source
deletes `init_maximum_depth` and `maximum_depth` unused, builds the virtual
machine from the source text and options alone, infers a stub, and reads the
dependency summary from the loader. -/
def infer_types (vm : VirtualMachineModel) (src : String) (options : Options)
    (loader : Loader) (init_maximum_depth : Nat) (maximum_depth : Nat) :
    Analysis :=
  let _ := init_maximum_depth
  let _ := maximum_depth
  let res := vm.inferStub src options
  let deps := loader.concatAllResult
  { context := res.fst, ast := some res.snd, astDeps := some deps }

/-! ### Helper lemmas -/

lemma bindingListToListOfList (l : List Binding) :
    (BindingList.ofList l).toList = l := by
  induction l with
  | nil => rfl
  | cons b rest ih => simp [BindingList.ofList, BindingList.toList, ih]

lemma valListToListOfList (l : List BaseValue) :
    (ValList.ofList l).toList = l := by
  induction l with
  | nil => rfl
  | cons v rest ih => simp [ValList.ofList, ValList.toList, ih]

lemma lookupEntries_insertEntries_self (k : String) (v : Variable)
    (l : List (String × Variable)) :
    lookupEntries k (insertEntries k v l) = some v := by
  induction l with
  | nil => simp [insertEntries, lookupEntries]
  | cons e rest ih =>
    obtain ⟨k', v'⟩ := e
    by_cases h : k' = k
    · simp [insertEntries, lookupEntries, h]
    · simp [insertEntries, lookupEntries, h, ih]

lemma VarMap.lookup_insert_self (m : VarMap) (k : String) (v : Variable) :
    (m.insert k v).lookup k = some v :=
  lookupEntries_insertEntries_self k v m.entries

lemma contains_setAdd (l : List String) (y : String) :
    (if l.contains y then l else l ++ [y]).contains y = true := by
  by_cases h : y ∈ l
  · simp [h]
  · simp [h]

/-! ### Claims -/

/-- **C1** (amended): `check_types` and `infer_types` each accept an
`init_maximum_depth` and a `maximum_depth` argument, but both entry points
delete these arguments unused and construct the virtual machine from the
source text and options alone, so the analysis result is independent of the
supplied depth arguments. -/
theorem c1_depth_arguments_ignored (vm : VirtualMachineModel) (src : String)
    (options : Options) (loader : Loader) (d1 m1 d2 m2 : Nat) :
    check_types vm src options loader d1 m1 =
      check_types vm src options loader d2 m2 ∧
    infer_types vm src options loader d1 m1 =
      infer_types vm src options loader d2 m2 :=
  ⟨rfl, rfl⟩

/-- **C1** counterexample: on a concrete self-recursive source, with supplied
depths 4/3 versus 1000/1000, `check_types` and `infer_types` return identical
analyses — the analysis result is independent of the supplied depth
arguments, contrary to the claim. -/
theorem c1_depths_do_not_change_result :
    check_types ⟨fun _ _ => 0, fun _ _ => (0, 0)⟩ "def f():\n  return f()\n"
        ⟨0⟩ ⟨0⟩ 4 3 =
      check_types ⟨fun _ _ => 0, fun _ _ => (0, 0)⟩ "def f():\n  return f()\n"
        ⟨0⟩ ⟨0⟩ 1000 1000 ∧
    infer_types ⟨fun _ _ => 0, fun _ _ => (0, 0)⟩ "def f():\n  return f()\n"
        ⟨0⟩ ⟨0⟩ 4 3 =
      infer_types ⟨fun _ _ => 0, fun _ _ => (0, 0)⟩ "def f():\n  return f()\n"
        ⟨0⟩ ⟨0⟩ 1000 1000 :=
  ⟨rfl, rfl⟩

/-- **C6**: `flatten_variable` collapses a variable's values into one abstract
value: `Any` for an empty value sequence, the single element unchanged when
there is exactly one value, and a union of the elements when there are two or
more. -/
theorem c6_flatten_variable_join (var : Variable) :
    (var.values = [] → flatten_variable var = .anyVal) ∧
    (∀ v, var.values = [v] → flatten_variable var = v) ∧
    (2 ≤ var.values.length →
      flatten_variable var = .union (ValList.ofList var.values)) := by
  refine ⟨?_, ?_, ?_⟩
  · intro h
    simp [flatten_variable, h]
  · intro v h
    simp [flatten_variable, h]
  · intro h
    simp [flatten_variable, Nat.lt_of_lt_of_le Nat.one_lt_two h]

/-- **C6** witness: the three cases evaluated at concrete variables with zero,
one, and two values. -/
theorem c6_flatten_variable_join_witness :
    flatten_variable (Variable.mk .nil none) = .anyVal ∧
    flatten_variable (Variable.mk (.cons (.mk .anyVal 0) .nil) none) = .anyVal ∧
    flatten_variable (Variable.mk (.cons (.mk .anyVal 0)
        (.cons (.mk .nullConst 0) .nil)) none) =
      .union (ValList.ofList (Variable.mk (.cons (.mk .anyVal 0)
        (.cons (.mk .nullConst 0) .nil)) none).values) :=
  ⟨(c6_flatten_variable_join _).1 (by decide),
   (c6_flatten_variable_join _).2.1 .anyVal (by decide),
   (c6_flatten_variable_join _).2.2 (by decide)⟩

/-- **C7**: `get_atomic_constant` fails on a variable with two or more distinct
bindings; fails with a wrong-constant-type `ValueError` on a variable whose
single constant binding wraps a value of a different type than the expected
type; and returns the unwrapped literal on a single matching constant
binding. -/
theorem c7_get_atomic_constant_contract :
    (∀ (b1 b2 : Binding) (rest : List Binding) (n : Option String)
        (typ : Option ConstType), b1 ≠ b2 →
      get_atomic_constant (Variable.mk (BindingList.ofList (b1 :: b2 :: rest)) n)
          typ = .error .valueErrorNotSingle) ∧
    (∀ (c : PyConst) (cond : Nat) (n : Option String) (t : ConstType),
        c.matchesType t = false →
      get_atomic_constant
          (Variable.mk (.cons (.mk (.constant c) cond) .nil) n) (some t) =
        .error (.valueErrorWrongConstantType t.className c.className)) ∧
    (∀ (c : PyConst) (cond : Nat) (n : Option String) (t : ConstType),
        c.matchesType t = true →
      get_atomic_constant
          (Variable.mk (.cons (.mk (.constant c) cond) .nil) n) (some t) =
        .ok c) := by
  refine ⟨?_, ?_, ?_⟩
  · intro b1 b2 rest n typ hne
    rfl
  · intro c cond n t h
    simp [get_atomic_constant, Variable.get_atomic_value, Variable.bindings,
      BindingList.toList, Binding.value, BaseValue.isPythonConstant, h,
      Bind.bind, Except.bind, pure, Except.pure]
  · intro c cond n t h
    simp [get_atomic_constant, Variable.get_atomic_value, Variable.bindings,
      BindingList.toList, Binding.value, BaseValue.isPythonConstant, h,
      Bind.bind, Except.bind, pure, Except.pure]

/-- **C7** witness: a variable with two distinct bindings fails; a variable
wrapping the string `"s"` where a tuple is expected fails with the
wrong-constant-type error; a variable wrapping an empty tuple where a tuple is
expected returns the literal. -/
theorem c7_get_atomic_constant_contract_witness :
    get_atomic_constant (Variable.mk (BindingList.ofList
        [Binding.mk .anyVal 0, Binding.mk .nullConst 0]) none) none =
      .error .valueErrorNotSingle ∧
    get_atomic_constant (Variable.mk
        (.cons (.mk (.constant (.strC "s")) 0) .nil) none) (some .tupleT) =
      .error (.valueErrorWrongConstantType "tuple" "str") ∧
    get_atomic_constant (Variable.mk
        (.cons (.mk (.constant (.tupleC .nil)) 0) .nil) none) (some .tupleT) =
      .ok (.tupleC .nil) :=
  ⟨c7_get_atomic_constant_contract.1 (Binding.mk .anyVal 0)
      (Binding.mk .nullConst 0) [] none none (by decide),
   c7_get_atomic_constant_contract.2.1 (.strC "s") 0 none .tupleT (by decide),
   c7_get_atomic_constant_contract.2.2 (.tupleC .nil) 0 none .tupleT (by decide)⟩

lemma VarMap.equivB_refl (m : VarMap) : VarMap.equivB m m = true := by
  simp [VarMap.equivB, List.all_eq_true]

/-- **C8**: frame construction enforces the two sanity checks — a module frame
(and every frame from `make_module_frame`) has identical initial local and
global mappings, and a frame with a non-empty initial enclosing scope must
have a creating frame; constructing a frame violating either check fails. -/
theorem c8_frame_construction_invariants :
    (∀ (pv : Nat × Nat) (g : VarMap) (bi : List (String × BaseValue)),
      ∃ fr, Frame.make_module_frame pv g bi = some fr ∧
        fr.locals = g ∧ fr.initialGlobals = g ∧ fr.hasBack = false) ∧
    (∀ (pv : Nat × Nat) (l e g : VarMap) (hb : Bool)
        (bi : List (String × BaseValue)),
      VarMap.equivB l g = false →
      Frame.make Frame.moduleFrameName pv l e g hb bi = none) ∧
    (∀ (name : String) (pv : Nat × Nat) (l e g : VarMap)
        (bi : List (String × BaseValue)),
      e.isEmpty = false →
      Frame.make name pv l e g false bi = none) := by
  refine ⟨?_, ?_, ?_⟩
  · intro pv g bi
    have h : Frame.make_module_frame pv g bi = some {
        name := Frame.moduleFrameName, pythonVersion := pv,
        initialEnclosing := VarMap.empty, initialGlobals := g,
        hasBack := false, builtins := bi, locals := g, dataStack := [],
        shadowedEnclosing := [], shadowedGlobals := [], functions := [],
        classes := [], returns := [], finalLocals := none } := by
      simp [Frame.make_module_frame, Frame.make, VarMap.equivB_refl,
        VarMap.empty, VarMap.isEmpty]
    exact ⟨_, h, rfl, rfl, rfl⟩
  · intro pv l e g hb bi h
    simp [Frame.make, h]
  · intro name pv l e g bi h
    by_cases hm : name = Frame.moduleFrameName ∧ ¬ VarMap.equivB l g
    · simp [Frame.make, hm]
    · simp [Frame.make, hm, h]

/-- **C8** witness: the module frame over one binding is built with equal
local and global mappings; a `__main__` frame with unequal locals and globals
fails; a parentless frame with a non-empty enclosing scope fails. -/
theorem c8_frame_construction_invariants_witness :
    (∃ fr, Frame.make_module_frame (3, 10)
        ⟨[("x", BaseValue.anyVal.to_variable none)]⟩ [] = some fr ∧
      fr.locals = ⟨[("x", BaseValue.anyVal.to_variable none)]⟩ ∧
      fr.initialGlobals = ⟨[("x", BaseValue.anyVal.to_variable none)]⟩ ∧
      fr.hasBack = false) ∧
    Frame.make Frame.moduleFrameName (3, 10)
      ⟨[("x", BaseValue.anyVal.to_variable none)]⟩ VarMap.empty VarMap.empty
      false [] = none ∧
    Frame.make "f" (3, 10) VarMap.empty
      ⟨[("y", BaseValue.anyVal.to_variable none)]⟩ VarMap.empty false [] =
      none :=
  ⟨c8_frame_construction_invariants.1 (3, 10)
      ⟨[("x", BaseValue.anyVal.to_variable none)]⟩ [],
   c8_frame_construction_invariants.2.1 (3, 10)
      ⟨[("x", BaseValue.anyVal.to_variable none)]⟩ VarMap.empty VarMap.empty
      false [] (by decide),
   c8_frame_construction_invariants.2.2 "f" (3, 10) VarMap.empty
      ⟨[("y", BaseValue.anyVal.to_variable none)]⟩ VarMap.empty [] (by decide)⟩

lemma Frame.store_enclosing_shadows (f : Frame) (y : String) (v : Variable) :
    (f.store_enclosing y v).shadows_enclosing y = true := by
  simpa [Frame.store_enclosing, Frame.store_local, Frame.shadows_enclosing]
    using contains_setAdd f.shadowedEnclosing y

lemma Frame.store_global_marks (f : Frame) (y : String) (v : Variable) :
    (f.store_global y v).shadowedGlobals.contains y = true := by
  simpa [Frame.store_global, Frame.store_local]
    using contains_setAdd f.shadowedGlobals y

/-- **C9**: in a non-module frame, once a name is marked shadowing-enclosing
(`store_enclosing`, or `store_deref` on an enclosing-scope name) or
shadowing-global (`store_global`), `load_local` on it raises `KeyError` even
though the value is stored in the frame's current state; the stored value is
reachable through `load_enclosing`/`load_deref` (respectively `load_global`).
In the module frame, `store_global` never hides a name from `load_local`. -/
theorem c9_shadowed_names_hidden_from_load_local (f : Frame) (y : String)
    (v : Variable) :
    (f.is_module_frame = false →
      ((f.store_enclosing y v).load_local y = .error (.keyError y) ∧
       (f.store_enclosing y v).locals.lookup y = some v ∧
       (f.store_enclosing y v).load_enclosing y = .ok v ∧
       (f.store_enclosing y v).load_deref y = .ok v) ∧
      ((f.store_global y v).load_local y = .error (.keyError y) ∧
       (f.store_global y v).locals.lookup y = some v ∧
       (f.store_global y v).load_global y = .ok v)) ∧
    ((f.initialEnclosing.lookup y).isSome = true →
      f.store_deref y v = f.store_enclosing y v) ∧
    (f.is_module_frame = true → f.shadows_enclosing y = false →
      (f.store_global y v).load_local y = .ok v) := by
  have hEncShadow := Frame.store_enclosing_shadows f y v
  have hGlobMark := Frame.store_global_marks f y v
  have hEncLookup : (f.store_enclosing y v).locals.lookup y = some v := by
    simp [Frame.store_enclosing, Frame.store_local, VarMap.lookup_insert_self]
  have hGlobLookup : (f.store_global y v).locals.lookup y = some v := by
    simp [Frame.store_global, Frame.store_local, VarMap.lookup_insert_self]
  refine ⟨?_, ?_, ?_⟩
  · intro hmod
    have hmod' : (f.store_global y v).is_module_frame = false := by
      simpa [Frame.store_global, Frame.store_local, Frame.is_module_frame]
        using hmod
    have hGlobShadow : (f.store_global y v).shadows_global y = true := by
      simp only [Frame.shadows_global, hmod', Bool.if_false_left]
      simpa using hGlobMark
    refine ⟨⟨?_, hEncLookup, ?_, ?_⟩, ⟨?_, hGlobLookup, ?_⟩⟩
    · simp [Frame.load_local, hEncShadow]
    · simp [Frame.load_enclosing, hEncShadow, Frame.state_load_local,
        hEncLookup]
    · simp [Frame.load_deref, Frame.load_local, hEncShadow,
        Frame.load_enclosing, Frame.state_load_local, hEncLookup]
    · simp [Frame.load_local, hGlobShadow]
    · simp [Frame.load_global, hGlobShadow, Frame.state_load_local,
        hGlobLookup]
  · intro h
    simp [Frame.store_deref, h]
  · intro hmod hnoenc
    have hEnc' : (f.store_global y v).shadows_enclosing y = false := by
      simpa [Frame.store_global, Frame.store_local, Frame.shadows_enclosing]
        using hnoenc
    have hmod' : (f.store_global y v).is_module_frame = true := by
      simpa [Frame.store_global, Frame.store_local, Frame.is_module_frame]
        using hmod
    have hGlob' : (f.store_global y v).shadows_global y = false := by
      simp [Frame.shadows_global, hmod']
    simp [Frame.load_local, hEnc', hGlob', Frame.state_load_local, hGlobLookup]

/-- A concrete non-module frame whose enclosing scope binds `y`. -/
def frameF : Frame := {
  name := "f"
  pythonVersion := (3, 10)
  initialEnclosing := ⟨[("y", BaseValue.nullConst.to_variable none)]⟩
  initialGlobals := VarMap.empty
  hasBack := true
  builtins := []
  locals := VarMap.empty
  dataStack := []
  shadowedEnclosing := []
  shadowedGlobals := []
  functions := []
  classes := []
  returns := []
  finalLocals := none }

/-- A concrete module frame. -/
def frameMain : Frame := {
  name := "__main__"
  pythonVersion := (3, 10)
  initialEnclosing := VarMap.empty
  initialGlobals := VarMap.empty
  hasBack := false
  builtins := []
  locals := VarMap.empty
  dataStack := []
  shadowedEnclosing := []
  shadowedGlobals := []
  functions := []
  classes := []
  returns := []
  finalLocals := none }

/-- A concrete single-binding variable. -/
def vW : Variable := BaseValue.anyVal.to_variable none

/-- **C9** witness: the shadowing behavior evaluated on concrete frames. -/
theorem c9_shadowed_names_witness :
    ((frameF.store_enclosing "y" vW).load_local "y" =
        .error (.keyError "y") ∧
     (frameF.store_enclosing "y" vW).locals.lookup "y" = some vW ∧
     (frameF.store_enclosing "y" vW).load_enclosing "y" = .ok vW ∧
     (frameF.store_enclosing "y" vW).load_deref "y" = .ok vW) ∧
    ((frameF.store_global "y" vW).load_local "y" = .error (.keyError "y") ∧
     (frameF.store_global "y" vW).locals.lookup "y" = some vW ∧
     (frameF.store_global "y" vW).load_global "y" = .ok vW) ∧
    frameF.store_deref "y" vW = frameF.store_enclosing "y" vW ∧
    (frameMain.store_global "g" vW).load_local "g" = .ok vW := by
  obtain ⟨ha, hb, _⟩ := c9_shadowed_names_hidden_from_load_local frameF "y" vW
  obtain ⟨_, _, hc⟩ := c9_shadowed_names_hidden_from_load_local frameMain "g" vW
  have ha' := ha (by decide)
  exact ⟨ha'.1, ha'.2, hb (by decide), hc (by decide) (by decide)⟩

lemma Frame.load_deref_store_deref_enclosing (f : Frame) (y : String)
    (v : Variable) (h : (f.initialEnclosing.lookup y).isSome = true) :
    (f.store_deref y v).load_deref y = .ok v := by
  have hd : f.store_deref y v = f.store_enclosing y v := by
    simp [Frame.store_deref, h]
  rw [hd]
  have hs := Frame.store_enclosing_shadows f y v
  have hl : (f.store_enclosing y v).locals.lookup y = some v := by
    simp [Frame.store_enclosing, Frame.store_local, VarMap.lookup_insert_self]
  simp [Frame.load_deref, Frame.load_local, hs, Frame.load_enclosing,
    Frame.state_load_local, hl]

lemma Frame.load_deref_store_deref_plain (f : Frame) (y : String) (v : Variable)
    (h : (f.initialEnclosing.lookup y).isSome = false)
    (henc : f.shadows_enclosing y = false)
    (hglob : f.shadows_global y = false) :
    (f.store_deref y v).load_deref y = .ok v := by
  have hd : f.store_deref y v = f.store_local y v := by
    simp [Frame.store_deref, h]
  rw [hd]
  have h1 : (f.store_local y v).shadows_enclosing y = false := henc
  have h2 : (f.store_local y v).shadows_global y = false := hglob
  have h3 : (f.store_local y v).load_local y =
      (f.store_local y v).state_load_local y := by
    simp [Frame.load_local, h1, h2]
  have h4 : (f.store_local y v).state_load_local y = .ok v := by
    simp [Frame.state_load_local, Frame.store_local,
      VarMap.lookup_insert_self f.locals y v]
  simp [Frame.load_deref, h3, h4]

/-- **C2**: for a frame whose initial enclosing scope contains `y`, after
`store_deref y v` a subsequent `load_deref y` in the same frame returns `v`
rather than the captured enclosing snapshot; and when a frame holding a
shadowed-enclosing write of `y` finalizes while its creating frame is still
live, `y` is folded into the creating frame via `store_deref`, so the creating
frame's subsequent `load_deref` of `y` returns the written value. -/
theorem c2_free_variable_write_read :
    (∀ (f : Frame) (y : String) (v : Variable),
      (f.initialEnclosing.lookup y).isSome = true →
      (f.store_deref y v).load_deref y = .ok v) ∧
    (∀ (p : Frame) (y : String) (var : Variable) (cn : String) (pv : Nat × Nat)
        (enc glob : VarMap) (bi : List (String × BaseValue))
        (fns cls : List BaseValue) (rets : List Variable),
      rpartitionDot y = none →
      p.finalLocals = none →
      p.shadows_global y = false →
      (p.shadowedEnclosing.contains y = true →
        (p.initialEnclosing.lookup y).isSome = true) →
      Frame.runFinalize
          (Frame.mk cn pv enc glob true bi ⟨[(y, var)]⟩ [] [y] [] fns cls
            rets none) (some p) =
        .ok (Frame.mk cn pv enc glob true bi ⟨[(y, var)]⟩ [] [y] [] fns cls
            rets (some [(y, join_values var.values)]),
          some (p.store_deref y var), []) ∧
      (p.store_deref y var).load_deref y = .ok var) := by
  constructor
  · intro f y v h
    exact Frame.load_deref_store_deref_enclosing f y v h
  · intro p y var cn pv enc glob bi fns cls rets hrp hp hg he
    constructor
    · simp [Frame.runFinalize, Frame.merge_nonlocals_into, mergeAttrLoop, hrp,
        foldShadowed, VarMap.lookup, lookupEntries, hp, List.foldlM,
        Bind.bind, Except.bind, pure, Except.pure, List.isEmpty]
    · by_cases hin : (p.initialEnclosing.lookup y).isSome = true
      · exact Frame.load_deref_store_deref_enclosing p y var hin
      · have hin2 : (p.initialEnclosing.lookup y).isSome = false := by
          simpa using hin
        have hc : p.shadowedEnclosing.contains y = false := by
          by_cases hcc : p.shadowedEnclosing.contains y = true
          · exact absurd (he hcc) (by simp [hin2])
          · simpa using hcc
        exact Frame.load_deref_store_deref_plain p y var hin2 hc hg

/-- **C2** witness: the write-then-read round trip and the finalize-time fold
into a live creating frame, evaluated on concrete frames. -/
theorem c2_free_variable_write_read_witness :
    (frameF.store_deref "y" vW).load_deref "y" = .ok vW ∧
    Frame.runFinalize (Frame.mk "g" (3, 10) VarMap.empty VarMap.empty true []
        ⟨[("y", vW)]⟩ [] ["y"] [] [] [] [] none) (some frameF) =
      .ok (Frame.mk "g" (3, 10) VarMap.empty VarMap.empty true []
          ⟨[("y", vW)]⟩ [] ["y"] [] [] [] []
          (some [("y", join_values vW.values)]),
        some (frameF.store_deref "y" vW), []) :=
  ⟨c2_free_variable_write_read.1 frameF "y" vW (by decide),
   (c2_free_variable_write_read.2 frameF "y" vW "g" (3, 10) VarMap.empty
      VarMap.empty [] [] [] [] (by decide) (by decide) (by decide)
      (by decide)).1⟩

/-- **C5**: at finalization with a live creating frame, a locally-bound
compound attribute name `"target.attr"` whose target name is bound in the
frame's final locals is applied as an attribute write (`set_attribute` of the
joined attribute value) on each value the target variable can hold, unless the
creating frame holds a local binding for the target name with value-identical
contents, in which case the compound name is instead stored into the creating
frame as an ordinary local write, preserving its multi-binding variable. -/
theorem c5_attribute_fold_at_finalization :
    ∀ (p : Frame) (t a nm : String) (tv var : Variable) (cn : String)
      (pv : Nat × Nat) (enc glob : VarMap) (bi : List (String × BaseValue))
      (fns cls : List BaseValue) (rets : List Variable),
      rpartitionDot t = none →
      rpartitionDot nm = some (t, a) →
      p.finalLocals = none →
      ((∀ ptv, p.load_local t = .ok ptv → ptv.values = tv.values →
        Frame.runFinalize
            (Frame.mk cn pv enc glob true bi ⟨[(t, tv), (nm, var)]⟩ [] [] []
              fns cls rets none) (some p) =
          .ok (Frame.mk cn pv enc glob true bi ⟨[(t, tv), (nm, var)]⟩ [] [] []
              fns cls rets
              (some [(t, join_values tv.values), (nm, join_values var.values)]),
            some (p.store_local nm var), [])) ∧
      (∀ e, p.load_local t = .error e →
        Frame.runFinalize
            (Frame.mk cn pv enc glob true bi ⟨[(t, tv), (nm, var)]⟩ [] [] []
              fns cls rets none) (some p) =
          .ok (Frame.mk cn pv enc glob true bi ⟨[(t, tv), (nm, var)]⟩ [] [] []
              fns cls rets
              (some [(t, join_values tv.values), (nm, join_values var.values)]),
            some p,
            tv.values.map
              (fun tgt => .attrStore tgt a (join_values var.values)))) ∧
      (∀ ptv, p.load_local t = .ok ptv → tv.values ≠ ptv.values →
        Frame.runFinalize
            (Frame.mk cn pv enc glob true bi ⟨[(t, tv), (nm, var)]⟩ [] [] []
              fns cls rets none) (some p) =
          .ok (Frame.mk cn pv enc glob true bi ⟨[(t, tv), (nm, var)]⟩ [] [] []
              fns cls rets
              (some [(t, join_values tv.values), (nm, join_values var.values)]),
            some p,
            tv.values.map
              (fun tgt => .attrStore tgt a (join_values var.values))))) := by
  intro p t a nm tv var cn pv enc glob bi fns cls rets hrt hrn hp
  refine ⟨?_, ?_, ?_⟩
  · intro ptv hl hveq
    simp [Frame.runFinalize, Frame.merge_nonlocals_into, mergeAttrLoop, hrt,
      hrn, hp, hl, hveq, VarMap.lookup, lookupEntries, List.foldlM,
      Bind.bind, Except.bind, pure, Except.pure]
  · intro e hl
    simp [Frame.runFinalize, Frame.merge_nonlocals_into, mergeAttrLoop, hrt,
      hrn, hp, hl, VarMap.lookup, lookupEntries, List.foldlM,
      Bind.bind, Except.bind, pure, Except.pure]
  · intro ptv hl hne
    simp [Frame.runFinalize, Frame.merge_nonlocals_into, mergeAttrLoop, hrt,
      hrn, hp, hl, hne, VarMap.lookup, lookupEntries, List.foldlM,
      Bind.bind, Except.bind, pure, Except.pure]

/-- A second concrete single-binding variable, value-distinct from `vW`. -/
def vB : Variable := BaseValue.nullConst.to_variable none

/-- A concrete creating frame binding `x` to the same variable contents the
child's target holds. -/
def frameP1 : Frame := Frame.mk "h" (3, 10) VarMap.empty VarMap.empty true []
  ⟨[("x", vW)]⟩ [] [] [] [] [] [] none

/-- A concrete creating frame binding `x` to different variable contents. -/
def frameP3 : Frame := Frame.mk "h" (3, 10) VarMap.empty VarMap.empty true []
  ⟨[("x", vB)]⟩ [] [] [] [] [] [] none

/-- **C5** witness: the three finalization outcomes for a frame binding the
compound name `"x.a"`, against creating frames that hold an identical binding
for `x`, no binding for `x`, and a different binding for `x`. -/
theorem c5_attribute_fold_witness :
    Frame.runFinalize (Frame.mk "g" (3, 10) VarMap.empty VarMap.empty true []
        ⟨[("x", vW), ("x.a", vB)]⟩ [] [] [] [] [] [] none) (some frameP1) =
      .ok (Frame.mk "g" (3, 10) VarMap.empty VarMap.empty true []
          ⟨[("x", vW), ("x.a", vB)]⟩ [] [] [] [] [] []
          (some [("x", join_values vW.values), ("x.a", join_values vB.values)]),
        some (frameP1.store_local "x.a" vB), []) ∧
    Frame.runFinalize (Frame.mk "g" (3, 10) VarMap.empty VarMap.empty true []
        ⟨[("x", vW), ("x.a", vB)]⟩ [] [] [] [] [] [] none) (some frameF) =
      .ok (Frame.mk "g" (3, 10) VarMap.empty VarMap.empty true []
          ⟨[("x", vW), ("x.a", vB)]⟩ [] [] [] [] [] []
          (some [("x", join_values vW.values), ("x.a", join_values vB.values)]),
        some frameF,
        vW.values.map (fun tgt => .attrStore tgt "a" (join_values vB.values))) ∧
    Frame.runFinalize (Frame.mk "g" (3, 10) VarMap.empty VarMap.empty true []
        ⟨[("x", vW), ("x.a", vB)]⟩ [] [] [] [] [] [] none) (some frameP3) =
      .ok (Frame.mk "g" (3, 10) VarMap.empty VarMap.empty true []
          ⟨[("x", vW), ("x.a", vB)]⟩ [] [] [] [] [] []
          (some [("x", join_values vW.values), ("x.a", join_values vB.values)]),
        some frameP3,
        vW.values.map (fun tgt => .attrStore tgt "a" (join_values vB.values))) :=
  ⟨(c5_attribute_fold_at_finalization frameP1 "x" "a" "x.a" vW vB "g" (3, 10)
      VarMap.empty VarMap.empty [] [] [] [] (by decide) (by decide) rfl).1
      vW rfl rfl,
   (c5_attribute_fold_at_finalization frameF "x" "a" "x.a" vW vB "g" (3, 10)
      VarMap.empty VarMap.empty [] [] [] [] (by decide) (by decide) rfl).2.1
      (.keyError "x") rfl,
   (c5_attribute_fold_at_finalization frameP3 "x" "a" "x.a" vW vB "g" (3, 10)
      VarMap.empty VarMap.empty [] [] [] [] (by decide) (by decide) rfl).2.2
      vB rfl (by decide)⟩

lemma mergeAttrLoop_none_snd (fl : VarMap) (items : List (String × Variable)) :
    (mergeAttrLoop fl none items).2 = none := by
  induction items with
  | nil => rfl
  | cons e rest ih =>
    obtain ⟨name, var⟩ := e
    cases hrp : rpartitionDot name with
    | none => simpa [mergeAttrLoop, hrp] using ih
    | some pr =>
      obtain ⟨t, a⟩ := pr
      cases hl : fl.lookup t with
      | none => simpa [mergeAttrLoop, hrp, hl] using ih
      | some tv => simpa [mergeAttrLoop, hrp, hl] using ih

lemma mergeAttrLoop_none_mem (fl : VarMap) (name t a : String)
    (var tv : Variable) (tgt : BaseValue)
    (hrp : rpartitionDot name = some (t, a))
    (hlk : fl.lookup t = some tv) (htgt : tgt ∈ tv.values) :
    ∀ items : List (String × Variable), (name, var) ∈ items →
      MergeEffect.attrStore tgt a (join_values var.values) ∈
        (mergeAttrLoop fl none items).1 := by
  intro items
  induction items with
  | nil => intro h; cases h
  | cons e rest ih =>
    intro hmem
    obtain ⟨n2, v2⟩ := e
    rcases List.mem_cons.mp hmem with heq | hmem2
    · cases heq
      simp only [mergeAttrLoop, hrp, hlk]
      exact List.mem_append_left _
        (List.mem_map.mpr ⟨tgt, htgt, rfl⟩)
    · cases hrp2 : rpartitionDot n2 with
      | none => simpa [mergeAttrLoop, hrp2] using ih hmem2
      | some pr =>
        obtain ⟨t2, a2⟩ := pr
        cases hlk2 : fl.lookup t2 with
        | none => simpa [mergeAttrLoop, hrp2, hlk2] using ih hmem2
        | some tv2 =>
          simp only [mergeAttrLoop, hrp2, hlk2]
          exact List.mem_append_right _ (ih hmem2)

/-- The finalized-locals snapshot a frame exposes once `run` completes. -/
def Frame.finalized (f : Frame) : Frame :=
  { f with finalLocals := some (f.locals.entries.map
      (fun e => (e.fst, join_values e.snd.values))) }

/-- **C10**: when a frame finishes running and its creating frame has already
finalized (`final_locals` set), the creating frame is returned entirely
unmodified — no shadowed-enclosing or shadowed-global names are folded — and
every locally-bound compound attribute name whose target is bound in the
frame's final locals is applied directly as attribute-store effects on the
target's values instead of being stored into the creating frame. -/
theorem c10_finalized_parent_untouched (child p : Frame)
    (fl : List (String × BaseValue)) (hp : p.finalLocals = some fl)
    (hstack : child.dataStack = []) :
    ∃ effects,
      Frame.runFinalize child (some p) =
        .ok (child.finalized, some p, effects) ∧
      ∀ (nm t a : String) (var tv : Variable) (tgt : BaseValue),
        (nm, var) ∈ child.locals.entries →
        rpartitionDot nm = some (t, a) →
        child.locals.lookup t = some tv →
        tgt ∈ tv.values →
        MergeEffect.attrStore tgt a (join_values var.values) ∈ effects := by
  have h1 := mergeAttrLoop_none_snd child.locals child.locals.entries
  have h2 : mergeAttrLoop child.locals none child.locals.entries =
      ((mergeAttrLoop child.locals none child.locals.entries).1, none) := by
    have h3 :=
      Prod.mk.eta (p := mergeAttrLoop child.locals none child.locals.entries)
    rw [h1] at h3
    exact h3.symm
  obtain ⟨eff, hEq⟩ : ∃ eff,
      mergeAttrLoop child.locals none child.locals.entries = (eff, none) :=
    ⟨_, h2⟩
  refine ⟨eff, ?_, ?_⟩
  · simp [Frame.runFinalize, Frame.merge_nonlocals_into, hstack, hp, hEq,
      Bind.bind, Except.bind, pure, Except.pure, Frame.finalized]
  · intro nm t a var tv tgt hmem hrp hlk htgt
    have hm := mergeAttrLoop_none_mem child.locals nm t a var tv tgt hrp hlk
      htgt child.locals.entries hmem
    rw [hEq] at hm
    exact hm

/-- A concrete already-finalized creating frame. -/
def frameP4 : Frame := Frame.mk "h" (3, 10) VarMap.empty VarMap.empty true []
  VarMap.empty [] [] [] [] [] [] (some [("z", BaseValue.anyVal)])

/-- A concrete finished child frame holding a compound attribute binding and
shadowed nonlocal names. -/
def childX : Frame := Frame.mk "g" (3, 10) VarMap.empty VarMap.empty true []
  ⟨[("x", vW), ("x.a", vB)]⟩ [] ["u"] ["w"] [] [] [] none

/-- **C10** witness: finalizing a concrete child whose creating frame has
already finalized leaves that frame untouched and emits attribute-store
effects. -/
theorem c10_finalized_parent_untouched_witness :
    ∃ effects,
      Frame.runFinalize childX (some frameP4) =
        .ok (childX.finalized, some frameP4, effects) ∧
      ∀ (nm t a : String) (var tv : Variable) (tgt : BaseValue),
        (nm, var) ∈ childX.locals.entries →
        rpartitionDot nm = some (t, a) →
        childX.locals.lookup t = some tv →
        tgt ∈ tv.values →
        MergeEffect.attrStore tgt a (join_values var.values) ∈ effects :=
  c10_finalized_parent_untouched childX frameP4 [("z", BaseValue.anyVal)]
    rfl rfl

/-- Push a variable onto a frame's operand stack. -/
def Frame.pushStack (f : Frame) (v : Variable) : Frame :=
  { f with dataStack := v :: f.dataStack }

/-- Append a constructed class to a frame's class list. -/
def Frame.appendClass (f : Frame) (cls : BaseValue) : Frame :=
  { f with classes := f.classes ++ [cls] }

/-- The interpreter class `_call_function` constructs for a `__build_class__`
call: named by the atomic string argument, with the class-body frame's
finalized locals as members and its functions and classes as nested
members. -/
def builtClass (oracle : CallOracle) (builder : BaseValue) (s : String) :
    BaseValue :=
  BaseValue.interpreterClass s
    (MemberList.ofList (oracle builder ⟨[]⟩).finalLocals)
    (ValList.ofList (oracle builder ⟨[]⟩).functions)
    (ValList.ofList (oracle builder ⟨[]⟩).classes)

lemma callValues_all_simple (oracle : CallOracle) (f : Frame) (args : Args) :
    ∀ vs : List BaseValue, (∀ v ∈ vs, v.isSimpleCallable = true) →
      callValues oracle f args vs =
        .ok (f, vs.map (fun v => (oracle v args).returnValue)) := by
  intro vs
  induction vs with
  | nil => intro h; rfl
  | cons v rest ih =>
    intro h
    have hv : v.isSimpleCallable = true := h v (List.mem_cons_self v rest)
    have hrest := ih (fun w hw => h w (List.mem_cons_of_mem v hw))
    simp [callValues, callValue, hv, hrest, Bind.bind, Except.bind, pure,
      Except.pure]

lemma callValues_unimplemented (oracle : CallOracle) (f : Frame) (args : Args)
    (w : BaseValue) (rest : List BaseValue)
    (hw : w.isSimpleCallable = false) (hbc : w ≠ .buildClassConst) :
    ∀ vs : List BaseValue, (∀ v ∈ vs, v.isSimpleCallable = true) →
      callValues oracle f args (vs ++ w :: rest) =
        .error (.notImplementedError "CALL not fully implemented") := by
  intro vs
  induction vs with
  | nil =>
    intro _
    simp [callValues, callValue, hw, hbc, Bind.bind, Except.bind, pure,
      Except.pure]
  | cons v vs2 ih =>
    intro h
    have hv : v.isSimpleCallable = true := h v (List.mem_cons_self v vs2)
    have hrest := ih (fun u hu => h u (List.mem_cons_of_mem v hu))
    simp [callValues, callValue, hv, hrest, Bind.bind, Except.bind, pure,
      Except.pure]

/-- **C3**: `_call_function` iterates over every possible callable value of
the popped callable variable independently: interpreter-defined functions,
bound functions and interpreter classes are invoked and their return values
collected and pushed back as one return variable with one binding per result;
the `__build_class__` constant triggers class construction (appending the
built class to the frame and collecting it as the result); any other value
raises an unimplemented-call error. -/
theorem c3_call_function_dispatch :
    (∀ (oracle : CallOracle) (f : Frame) (args : Args) (func_var : Variable),
      (∀ v ∈ func_var.values, v.isSimpleCallable = true) →
      f.call_function oracle func_var args =
        .ok (f.pushStack (Variable.mk (BindingList.ofList
          (func_var.values.map
            (fun v => Binding.mk (oracle v args).returnValue 0))) none))) ∧
    (∀ (oracle : CallOracle) (f : Frame) (args : Args) (func_var : Variable)
        (vs : List BaseValue) (w : BaseValue) (rest : List BaseValue),
      func_var.values = vs ++ w :: rest →
      (∀ v ∈ vs, v.isSimpleCallable = true) →
      w.isSimpleCallable = false → w ≠ .buildClassConst →
      f.call_function oracle func_var args =
        .error (.notImplementedError "CALL not fully implemented")) ∧
    (∀ (oracle : CallOracle) (f : Frame) (bodyVar nameVar : Variable)
        (bn : String) (bc : Nat) (bsc : List String) (bdf : String)
        (c1 c2 : Nat) (n1 n2 : Option String) (s : String),
      bodyVar = Variable.mk
        (.cons (.mk (.interpreterFunction bn bc bsc bdf) c1) .nil) n1 →
      nameVar = Variable.mk (.cons (.mk (.constant (.strC s)) c2) .nil) n2 →
      ∃ cls, callValue oracle f ⟨[bodyVar, nameVar]⟩ .buildClassConst =
        .ok (f.appendClass cls, cls)) := by
  refine ⟨?_, ?_, ?_⟩
  · intro oracle f args func_var h
    have hc := callValues_all_simple oracle f args func_var.values h
    simp only [Frame.call_function, hc, Frame.pushStack, Bind.bind,
      Except.bind, pure, Except.pure, List.map_map]
    rfl
  · intro oracle f args func_var vs w rest hsplit hvs hw hbc
    have hc := callValues_unimplemented oracle f args w rest hw hbc vs hvs
    rw [← hsplit] at hc
    simp [Frame.call_function, hc, Bind.bind, Except.bind, pure, Except.pure]
  · intro oracle f bodyVar nameVar bn bc bsc bdf c1 c2 n1 n2 s hb hn
    subst hb hn
    refine ⟨builtClass oracle (.interpreterFunction bn bc bsc bdf) s, ?_⟩
    simp [callValue, Variable.get_atomic_value, Variable.bindings,
      BindingList.toList, Binding.value, BaseValue.isInterpreterFunction,
      BaseValue.isSimpleCallable, BaseValue.isPythonConstant,
      get_atomic_constant, PyConst.matchesType, builtClass, Frame.appendClass,
      Bind.bind, Except.bind, pure, Except.pure]

/-- A concrete call oracle: every invocation yields an instance, one member
and no nested definitions. -/
def oracleW : CallOracle := fun _ _ =>
  ⟨.instanceOf "r", [("m", BaseValue.anyVal)], [], []⟩

/-- A concrete interpreter function value. -/
def fnVal : BaseValue := .interpreterFunction "f" 0 [] "m"

/-- A concrete interpreter class value. -/
def clsVal : BaseValue := .interpreterClass "C" .nil .nil .nil

/-- A concrete callable variable holding a function and a class. -/
def funcVarW : Variable :=
  Variable.mk (BindingList.ofList [.mk fnVal 0, .mk clsVal 0]) none

/-- **C3** witness: the dispatch evaluated at a two-valued callable variable,
at a non-callable variable, and at a `__build_class__` call. -/
theorem c3_call_function_dispatch_witness :
    frameMain.call_function oracleW funcVarW ⟨[]⟩ =
      .ok (frameMain.pushStack (Variable.mk (BindingList.ofList
        (funcVarW.values.map
          (fun v => Binding.mk (oracleW v ⟨[]⟩).returnValue 0))) none)) ∧
    frameMain.call_function oracleW
        (Variable.mk (.cons (.mk .anyVal 0) .nil) none) ⟨[]⟩ =
      .error (.notImplementedError "CALL not fully implemented") ∧
    ∃ cls, callValue oracleW frameMain
        ⟨[Variable.mk (.cons (.mk fnVal 0) .nil) none,
          Variable.mk (.cons (.mk (.constant (.strC "C")) 0) .nil) none]⟩
        .buildClassConst =
      .ok (frameMain.appendClass cls, cls) :=
  ⟨c3_call_function_dispatch.1 oracleW frameMain ⟨[]⟩ funcVarW (by decide),
   c3_call_function_dispatch.2.1 oracleW frameMain ⟨[]⟩
     (Variable.mk (.cons (.mk .anyVal 0) .nil) none) [] .anyVal []
     (by decide) (by decide) (by decide) (by decide),
   c3_call_function_dispatch.2.2 oracleW frameMain
     (Variable.mk (.cons (.mk fnVal 0) .nil) none)
     (Variable.mk (.cons (.mk (.constant (.strC "C")) 0) .nil) none)
     "f" 0 [] "m" 0 0 none none "C" rfl rfl⟩

/-- Replace a frame's operand stack. -/
def Frame.withStack (f : Frame) (s : List Variable) : Frame :=
  { f with dataStack := s }

/-- Replace a frame's function list. -/
def Frame.withFunctions (f : Frame) (fns : List BaseValue) : Frame :=
  { f with functions := fns }

/-- **C4**: a `__build_class__` call runs the class-body function as a child
frame and builds an interpreter class whose member mapping is exactly that
frame's finalized local bindings, whose nested functions and classes are those
the frame defined, and whose name is an atomic string read from the argument
stack; and `byte_MAKE_FUNCTION` does not append the function it creates to the
frame's function list when the remaining stack top is the `__build_class__`
constant (while appending it otherwise). -/
theorem c4_class_construction :
    (∀ (oracle : CallOracle) (f : Frame) (bodyVar nameVar : Variable)
        (bn : String) (bc : Nat) (bsc : List String) (bdf : String)
        (c1 c2 : Nat) (n1 n2 : Option String) (s : String),
      bodyVar = Variable.mk
        (.cons (.mk (.interpreterFunction bn bc bsc bdf) c1) .nil) n1 →
      nameVar = Variable.mk (.cons (.mk (.constant (.strC s)) c2) .nil) n2 →
      callValue oracle f ⟨[bodyVar, nameVar]⟩ .buildClassConst =
        .ok (f.appendClass
            (builtClass oracle (.interpreterFunction bn bc bsc bdf) s),
          builtClass oracle (.interpreterFunction bn bc bsc bdf) s) ∧
      builtClass oracle (.interpreterFunction bn bc bsc bdf) s =
        .interpreterClass s
          (MemberList.ofList
            (oracle (.interpreterFunction bn bc bsc bdf) ⟨[]⟩).finalLocals)
          (ValList.ofList
            (oracle (.interpreterFunction bn bc bsc bdf) ⟨[]⟩).functions)
          (ValList.ofList
            (oracle (.interpreterFunction bn bc bsc bdf) ⟨[]⟩).classes)) ∧
    (∀ (f : Frame) (nameV codeV bcv : Variable) (rest : List Variable)
        (n : String) (cid : Nat) (q : String) (c1 c2 : Nat)
        (m1 m2 : Option String),
      versionAtLeast f.pythonVersion (3, 11) = false →
      f.dataStack = nameV :: codeV :: bcv :: rest →
      nameV = Variable.mk (.cons (.mk (.constant (.strC n)) c1) .nil) m1 →
      codeV = Variable.mk (.cons (.mk (.constant (.codeC cid q)) c2) .nil) m2 →
      (bcv.has_atomic_value .buildClassConst = true →
        f.byte_MAKE_FUNCTION 0 = .ok (f.withStack
          ((BaseValue.interpreterFunction n cid [] f.name).to_variable none ::
            bcv :: rest))) ∧
      (bcv.has_atomic_value .buildClassConst = false →
        f.byte_MAKE_FUNCTION 0 = .ok ((f.withFunctions (f.functions ++
            [BaseValue.interpreterFunction n cid [] f.name])).withStack
          ((BaseValue.interpreterFunction n cid [] f.name).to_variable none ::
            bcv :: rest)))) := by
  constructor
  · intro oracle f bodyVar nameVar bn bc bsc bdf c1 c2 n1 n2 s hb hn
    subst hb hn
    constructor
    · simp [callValue, Variable.get_atomic_value, Variable.bindings,
        BindingList.toList, Binding.value, BaseValue.isInterpreterFunction,
        BaseValue.isSimpleCallable, BaseValue.isPythonConstant,
        get_atomic_constant, PyConst.matchesType, builtClass,
        Frame.appendClass, Bind.bind, Except.bind, pure, Except.pure]
    · rfl
  · intro f nameV codeV bcv rest n cid q c1 c2 m1 m2 hv hstack hnv hcv
    subst hnv hcv
    constructor
    · intro hbcv
      simp [Frame.byte_MAKE_FUNCTION, hv, hstack, popStack,
        get_atomic_constant, Variable.get_atomic_value, Variable.bindings,
        BindingList.toList, Binding.value, BaseValue.isPythonConstant,
        PyConst.matchesType, MAKE_FUNCTION_HAS_FREE_VARS, hbcv,
        Frame.withStack, BaseValue.to_variable, Bind.bind, Except.bind,
        pure, Except.pure]
    · intro hbcv
      simp [Frame.byte_MAKE_FUNCTION, hv, hstack, popStack,
        get_atomic_constant, Variable.get_atomic_value, Variable.bindings,
        BindingList.toList, Binding.value, BaseValue.isPythonConstant,
        PyConst.matchesType, MAKE_FUNCTION_HAS_FREE_VARS, hbcv,
        Frame.withStack, Frame.withFunctions, BaseValue.to_variable,
        Bind.bind, Except.bind, pure, Except.pure]

/-- A concrete variable holding the `__build_class__` constant. -/
def bcVar : Variable := BaseValue.buildClassConst.to_variable none

/-- A concrete name-constant variable. -/
def nameVarW : Variable :=
  Variable.mk (.cons (.mk (.constant (.strC "f")) 0) .nil) none

/-- A concrete code-constant variable. -/
def codeVarW : Variable :=
  Variable.mk (.cons (.mk (.constant (.codeC 7 "f")) 0) .nil) none

/-- A concrete frame about to run MAKE_FUNCTION during class construction:
the stack holds the name and code operands above `__build_class__`. -/
def frameMF : Frame := Frame.mk "__main__" (3, 10) VarMap.empty VarMap.empty
  false [] VarMap.empty [nameVarW, codeVarW, bcVar] [] [] [] [] [] none

/-- A concrete frame about to run MAKE_FUNCTION outside class construction. -/
def frameMF2 : Frame := Frame.mk "__main__" (3, 10) VarMap.empty VarMap.empty
  false [] VarMap.empty [nameVarW, codeVarW, vW] [] [] [] [] [] none

/-- **C4** witness: a concrete `__build_class__` call, and MAKE_FUNCTION with
and without `__build_class__` at the remaining stack top. -/
theorem c4_class_construction_witness :
    (callValue oracleW frameMain
        ⟨[Variable.mk (.cons (.mk fnVal 0) .nil) none,
          Variable.mk (.cons (.mk (.constant (.strC "C")) 0) .nil) none]⟩
        .buildClassConst =
      .ok (frameMain.appendClass (builtClass oracleW fnVal "C"),
        builtClass oracleW fnVal "C") ∧
      builtClass oracleW fnVal "C" =
        .interpreterClass "C"
          (MemberList.ofList (oracleW fnVal ⟨[]⟩).finalLocals)
          (ValList.ofList (oracleW fnVal ⟨[]⟩).functions)
          (ValList.ofList (oracleW fnVal ⟨[]⟩).classes)) ∧
    frameMF.byte_MAKE_FUNCTION 0 = .ok (frameMF.withStack
      ((BaseValue.interpreterFunction "f" 7 [] frameMF.name).to_variable none ::
        bcVar :: [])) ∧
    frameMF2.byte_MAKE_FUNCTION 0 = .ok ((frameMF2.withFunctions
        (frameMF2.functions ++
          [BaseValue.interpreterFunction "f" 7 [] frameMF2.name])).withStack
      ((BaseValue.interpreterFunction "f" 7 [] frameMF2.name).to_variable none ::
        vW :: [])) :=
  ⟨c4_class_construction.1 oracleW frameMain
      (Variable.mk (.cons (.mk fnVal 0) .nil) none)
      (Variable.mk (.cons (.mk (.constant (.strC "C")) 0) .nil) none)
      "f" 0 [] "m" 0 0 none none "C" rfl rfl,
   (c4_class_construction.2 frameMF nameVarW codeVarW bcVar [] "f" 7 "f" 0 0
      none none (by decide) rfl rfl rfl).1 (by decide),
   (c4_class_construction.2 frameMF2 nameVarW codeVarW vW [] "f" 7 "f" 0 0
      none none (by decide) rfl rfl rfl).2 (by decide)⟩
